import Mathlib

/-!
Shallow embedding of the cronify job-state manager (src/app/job_manager.py and
the /start-job route of src/app/app.py) and proofs about its claims.

The Redis store is modelled as an association list of job records keyed by
job id (the `job:<id>` hashes) together with a list of active job ids (the
`active_jobs` set).  Each Python method of `JobManager` becomes a Lean
function from the store to a result paired with the new store.  Times are
integers (`time.time()` values); progress values are integers.  Configuration
constants are the module defaults (`THRESHOLD_TIMEOUT=300`, `MAX_RETRIES=3`,
`PROGRESS_THRESHOLD=10`).
-/

namespace Cronify

/-- Job status strings stored in the `status` field. -/
inductive JobStatus
  | Running
  | Retrying
  | Completed
  | Failed
deriving DecidableEq, Repr

/-- One `job:<id>` hash: the five fields written by `start_job`. -/
structure JobRecord where
  status : JobStatus
  progress : Int
  last_progress : Int
  retries : Nat
  start_time : Int
deriving DecidableEq, Repr

/-- The Redis state used by `JobManager`: the `active_jobs` set (as a list of
ids) and the `job:<id>` hashes (as an association list). -/
structure Store where
  active : List String
  jobs : List (String × JobRecord)
deriving DecidableEq, Repr

def emptyStore : Store := ⟨[], []⟩

/-- The `status` strings returned by `JobManager` methods. -/
inductive OpResult
  | Accepted
  | DuplicateJobId
  | NotFound
  | ProgressUpdated
  | NotRunning
  | Completed
  | Failed
  | Retried
  | MaxRetriesExceeded
deriving DecidableEq, Repr

/-- Runtime errors the embedded Python code can raise. -/
inductive PyError
  | NameErrorThresholdTime
deriving DecidableEq, Repr

/-- Module-level default `MAX_RETRIES = int(os.getenv("MAX_RETRIES", 3))`. -/
def MAX_RETRIES : Nat := 3

/-- Module-level default `THRESHOLD_TIMEOUT = 300` (seconds). -/
def THRESHOLD_TIMEOUT : Int := 300

/-- Module-level default `PROGRESS_THRESHOLD = 10` (progress units). -/
def PROGRESS_THRESHOLD : Int := 10

/-- `HGETALL job:<id>` restricted to a present/absent view: first binding for
the key in the association list. -/
def jobsGet (id : String) : List (String × JobRecord) → Option JobRecord
  | [] => none
  | (k, v) :: rest => if k = id then some v else jobsGet id rest

/-- `HMSET job:<id> ...`: replace the first binding for the key, or append a
new binding when the key is absent. -/
def jobsSet (id : String) (r : JobRecord) : List (String × JobRecord) → List (String × JobRecord)
  | [] => [(id, r)]
  | (k, v) :: rest => if k = id then (id, r) :: rest else (k, v) :: jobsSet id r rest

/-- `SADD active_jobs id`: add the id if it is not already a member. -/
def saddList (id : String) (l : List String) : List String :=
  if id ∈ l then l else l ++ [id]

/-- `SREM active_jobs id`: drop every occurrence of the id. -/
def sremList (id : String) (l : List String) : List String :=
  l.filter (fun x => x != id)

/-- Characters accepted by the character class `[a-zA-Z0-9\-]`. -/
def isIdChar (c : Char) : Bool :=
  (97 ≤ c.toNat && c.toNat ≤ 122) ||
  (65 ≤ c.toNat && c.toNat ≤ 90) ||
  (48 ≤ c.toNat && c.toNat ≤ 57) ||
  c == '-'

/-- Tail of a Python `re.match` of `^[a-zA-Z0-9\-]+$` after the first class
character: consume further class characters; at a non-class character the
anchor `$` succeeds only at the end of the string or just before a single
trailing newline (CPython `$` semantics without `re.MULTILINE`). -/
def runTail : List Char → Bool
  | [] => true
  | c :: cs => if isIdChar c then runTail cs else (c == '\n' && cs.isEmpty)

/-- `re.match(r"^[a-zA-Z0-9\-]+$", s)` as a Boolean on the character list:
at least one class character, then `runTail`. -/
def isValidJobIdL : List Char → Bool
  | [] => false
  | c :: cs => isIdChar c && runTail cs

/-- `JobManager.is_valid_job_id`. -/
def is_valid_job_id (s : String) : Bool :=
  isValidJobIdL s.data

/-- Nonempty and composed only of `[A-Za-z0-9-]` — the spec's stated
acceptance condition for the validator. -/
def coreValid (l : List Char) : Bool :=
  !l.isEmpty && l.all isIdChar

/-- Amended acceptance condition: a valid core, optionally followed by exactly
one trailing newline. -/
def specValidWithNewline (l : List Char) : Bool :=
  coreValid l ||
  (match l.getLast? with
   | some c => c == '\n' && coreValid l.dropLast
   | none => false)

/-- `JobManager.start_job`: reject when the id is in `active_jobs`, otherwise
`SADD` the id and `HMSET` the initial record. -/
def start_job (id : String) (now : Int) (s : Store) : OpResult × Store :=
  if id ∈ s.active then (.DuplicateJobId, s)
  else (.Accepted,
    { active := saddList id s.active,
      jobs := jobsSet id ⟨.Running, 0, 0, 0, now⟩ s.jobs })

/-- `JobManager.get_job_status`: pure read of the record. -/
def get_job_status (id : String) (s : Store) : Option JobRecord :=
  jobsGet id s.jobs

/-- `JobManager.update_progress`: `Not Found` when the record is absent,
`Not Running` when the current status is not `Running`, otherwise store the
new progress and snapshot the old progress into `last_progress`. -/
def update_progress (id : String) (p : Int) (s : Store) : OpResult × Store :=
  match jobsGet id s.jobs with
  | none => (.NotFound, s)
  | some r =>
    if r.status ≠ .Running then (.NotRunning, s)
    else (.ProgressUpdated,
      { s with jobs := jobsSet id { r with progress := p, last_progress := r.progress } s.jobs })

/-- `JobManager.complete_job`: unconditionally set `status=Completed` and
remove the id from `active_jobs` when the record exists. -/
def complete_job (id : String) (s : Store) : OpResult × Store :=
  match jobsGet id s.jobs with
  | none => (.NotFound, s)
  | some r => (.Completed,
      { active := sremList id s.active,
        jobs := jobsSet id { r with status := .Completed } s.jobs })

/-- `JobManager.fail_job`: unconditionally set `status=Failed` and remove the
id from `active_jobs` when the record exists. -/
def fail_job (id : String) (s : Store) : OpResult × Store :=
  match jobsGet id s.jobs with
  | none => (.NotFound, s)
  | some r => (.Failed,
      { active := sremList id s.active,
        jobs := jobsSet id { r with status := .Failed } s.jobs })

/-- `JobManager.retry_job`: `Not Found` when absent; reject when
`retries + 1 > MAX_RETRIES`; otherwise `HMSET` only `status=Retrying`,
`progress=0`, `retries=retries+1`.  The source writes neither `start_time`
nor `last_progress` and does not touch `active_jobs`. -/
def retry_job (id : String) (s : Store) : OpResult × Store :=
  match jobsGet id s.jobs with
  | none => (.NotFound, s)
  | some r =>
    let retries := r.retries + 1
    if retries > MAX_RETRIES then (.MaxRetriesExceeded, s)
    else (.Retried,
      { s with jobs := jobsSet id { r with status := .Retrying, progress := 0, retries := retries } s.jobs })

/-- Loop body of `JobManager.check_stuck_jobs`: jobs whose status is not
`Running` are skipped; for a `Running` job the source computes
`elapsed_time` and `progress_diff` and then evaluates
`elapsed_time > THRESHOLD_TIME`, a name not defined anywhere in the module,
so CPython raises `NameError` before any comparison or `fail_job` call. -/
def checkStuckLoop (now : Int) : List (String × JobRecord) → Except PyError Unit
  | [] => .ok ()
  | (_, r) :: rest =>
    if r.status = .Running then
      let _elapsed_time : Int := now - r.start_time
      let _progress_diff : Int := r.progress - r.last_progress
      .error .NameErrorThresholdTime
    else checkStuckLoop now rest

/-- `JobManager.check_stuck_jobs`: scan all records; the store is returned
unchanged because the loop either skips every record or raises before any
mutation. -/
def check_stuck_jobs (now : Int) (s : Store) : Except PyError Store :=
  match checkStuckLoop now s.jobs with
  | .ok _ => .ok s
  | .error e => .error e

/-- The operations of the `JobManager` API. -/
inductive Op
  | start (id : String) (now : Int)
  | update (id : String) (p : Int)
  | fail (id : String)
  | retry (id : String)
  | complete (id : String)
  | checkStuck (now : Int)
deriving DecidableEq, Repr

/-- Effect of one operation on the store.  An exception escaping
`check_stuck_jobs` leaves the store as it was. -/
def applyOp (op : Op) (s : Store) : Store :=
  match op with
  | .start id now => (start_job id now s).2
  | .update id p => (update_progress id p s).2
  | .fail id => (fail_job id s).2
  | .retry id => (retry_job id s).2
  | .complete id => (complete_job id s).2
  | .checkStuck now =>
    match check_stuck_jobs now s with
    | .ok s2 => s2
    | .error _ => s

/-- Run a sequence of operations from a store. -/
def runOps (ops : List Op) (s : Store) : Store :=
  ops.foldl (fun t op => applyOp op t) s

/-- Stores reachable from the empty store by `JobManager` operations. -/
inductive Reachable : Store → Prop
  | init : Reachable emptyStore
  | step (op : Op) {s : Store} : Reachable s → Reachable (applyOp op s)

/-- Responses of the `/start-job` route of src/app/app.py. -/
inductive RouteResult
  | InvalidJobId
  | FromManager (r : OpResult)
deriving DecidableEq, Repr

/-- The `/start-job` route handler: validate the id first and return
`Invalid Job ID` with no call into the manager, otherwise delegate to
`JobManager.start_job`. -/
def route_start_job (id : String) (now : Int) (s : Store) : RouteResult × Store :=
  if is_valid_job_id id then
    let (r, s2) := start_job id now s
    (.FromManager r, s2)
  else (.InvalidJobId, s)

/-- Status of a job id in a store, when a record exists. -/
def statusOf (id : String) (s : Store) : Option JobStatus :=
  (jobsGet id s.jobs).map JobRecord.status

/-- Retry count of a job id in a store, when a record exists. -/
def retriesOf (id : String) (s : Store) : Option Nat :=
  (jobsGet id s.jobs).map JobRecord.retries

/-- The record of `id` is present with an in-flight (`Running` or
`Retrying`) status. -/
def inFlightStatus (id : String) (s : Store) : Bool :=
  match jobsGet id s.jobs with
  | some r => r.status == .Running || r.status == .Retrying
  | none => false

/-- The record of `id` is present with a terminal status. -/
def terminalAt (id : String) (s : Store) : Bool :=
  match jobsGet id s.jobs with
  | some r => r.status == .Completed || r.status == .Failed
  | none => false

/-- The record of `id`, when present, has `retries ≤ MAX_RETRIES`. -/
def retriesBounded (id : String) (s : Store) : Bool :=
  match jobsGet id s.jobs with
  | some r => decide (r.retries ≤ MAX_RETRIES)
  | none => true

/-- Operations other than `start_job` and `retry_job`. -/
def nonReviving : Op → Bool
  | .start _ _ => false
  | .retry _ => false
  | _ => true

/-- The spec's retry scenario: one `start_job "j"` followed by four
sequential `retry_job "j"` calls; the four results and the final store. -/
def fourRetries : List OpResult × Store :=
  let s0 := (start_job "j" 0 emptyStore).2
  let p1 := retry_job "j" s0
  let p2 := retry_job "j" p1.2
  let p3 := retry_job "j" p2.2
  let p4 := retry_job "j" p3.2
  ([p1.1, p2.1, p3.1, p4.1], p4.2)

/-- Program counter of one in-flight `start_job` call, one Redis command per
step, exactly as the source issues them: first `SISMEMBER active_jobs id`,
then (when absent) `SADD active_jobs id`, then `HMSET job:id ...`. -/
inductive StartPC
  | checkMember
  | doSAdd
  | doHMSet
  | finished (r : OpResult)
deriving DecidableEq, Repr

/-- One concurrent caller of `start_job`. -/
structure StartThread where
  id : String
  now : Int
  pc : StartPC
deriving DecidableEq, Repr

/-- One atomic Redis command of a `start_job` caller. -/
def stepStart (t : StartThread) (s : Store) : StartThread × Store :=
  match t.pc with
  | .checkMember =>
    if t.id ∈ s.active then ({ t with pc := .finished .DuplicateJobId }, s)
    else ({ t with pc := .doSAdd }, s)
  | .doSAdd => ({ t with pc := .doHMSet }, { s with active := saddList t.id s.active })
  | .doHMSet => ({ t with pc := .finished .Accepted },
      { s with jobs := jobsSet t.id ⟨.Running, 0, 0, 0, t.now⟩ s.jobs })
  | .finished _ => (t, s)

/-- Run one `start_job` caller alone for three atomic commands — enough to
drive it from `checkMember` to a `finished` state. -/
def runStartAlone (t : StartThread) (s : Store) : StartThread × Store :=
  let p1 := stepStart t s
  let p2 := stepStart p1.1 p1.2
  stepStart p2.1 p2.2

/-- Interleave two `start_job` callers under a schedule: `true` steps the
first caller, `false` the second. -/
def runTwo : List Bool → StartThread × StartThread × Store → StartThread × StartThread × Store
  | [], st => st
  | b :: rest, (t1, t2, s) =>
    if b then
      let p := stepStart t1 s
      runTwo rest (p.1, t2, p.2)
    else
      let p := stepStart t2 s
      runTwo rest (t1, p.1, p.2)

/-- The racy schedule: both callers for id `"a"` pass the `SISMEMBER` check
before either performs its writes. -/
def twoStartsInterleaved : StartThread × StartThread × Store :=
  runTwo [true, false, true, true, false, false]
    (⟨"a", 0, .checkMember⟩, ⟨"a", 5, .checkMember⟩, emptyStore)

/-! ### Lemmas about the store primitives -/

theorem jobsGet_jobsSet (id id2 : String) (r : JobRecord) (l : List (String × JobRecord)) :
    jobsGet id (jobsSet id2 r l) = if id2 = id then some r else jobsGet id l := by
  induction l with
  | nil => simp [jobsGet, jobsSet]
  | cons p rest ih =>
    obtain ⟨k, v⟩ := p
    simp only [jobsSet]
    by_cases hk : k = id2
    · subst hk
      simp only [if_pos rfl, jobsGet]
      by_cases hid : k = id
      · subst hid; simp
      · simp [hid]
    · simp only [if_neg hk, jobsGet]
      by_cases hid : k = id
      · subst hid
        have h2 : ¬ id2 = k := fun h => hk h.symm
        simp [h2]
      · simp [hid, ih]

theorem mem_saddList {id id2 : String} {l : List String} :
    id ∈ saddList id2 l ↔ id = id2 ∨ id ∈ l := by
  by_cases h : id2 ∈ l
  · simp only [saddList, if_pos h]
    constructor
    · exact Or.inr
    · rintro (rfl | hm)
      · exact h
      · exact hm
  · simp [saddList, if_neg h, List.mem_append, or_comm]

theorem mem_sremList {id id2 : String} {l : List String} :
    id ∈ sremList id2 l ↔ id ∈ l ∧ id ≠ id2 := by
  simp [sremList, List.mem_filter, bne_iff_ne]

theorem applyOp_checkStuck (now : Int) (s : Store) : applyOp (.checkStuck now) s = s := by
  simp only [applyOp, check_stuck_jobs]
  cases checkStuckLoop now s.jobs <;> rfl

/-! ### Equation lemmas for the operations -/

theorem start_job_active {id : String} {s : Store} (now : Int) (hj : id ∈ s.active) :
    start_job id now s = (.DuplicateJobId, s) := by
  simp [start_job, hj]

theorem start_job_inactive {id : String} {s : Store} (now : Int) (hj : id ∉ s.active) :
    start_job id now s =
      (.Accepted, ⟨saddList id s.active, jobsSet id ⟨.Running, 0, 0, 0, now⟩ s.jobs⟩) := by
  simp [start_job, hj]

theorem update_progress_absent {id : String} {s : Store} (p : Int)
    (hg : jobsGet id s.jobs = none) :
    update_progress id p s = (.NotFound, s) := by
  simp [update_progress, hg]

theorem update_progress_not_running {id : String} {s : Store} {r : JobRecord} (p : Int)
    (hg : jobsGet id s.jobs = some r) (hr : r.status ≠ .Running) :
    update_progress id p s = (.NotRunning, s) := by
  simp [update_progress, hg, hr]

theorem update_progress_running {id : String} {s : Store} {r : JobRecord} (p : Int)
    (hg : jobsGet id s.jobs = some r) (hr : r.status = .Running) :
    update_progress id p s = (.ProgressUpdated,
      { s with jobs := jobsSet id { r with progress := p, last_progress := r.progress } s.jobs }) := by
  simp [update_progress, hg, hr]

theorem complete_job_absent {id : String} {s : Store} (hg : jobsGet id s.jobs = none) :
    complete_job id s = (.NotFound, s) := by
  simp [complete_job, hg]

theorem complete_job_present {id : String} {s : Store} {r : JobRecord}
    (hg : jobsGet id s.jobs = some r) :
    complete_job id s = (.Completed,
      ⟨sremList id s.active, jobsSet id { r with status := .Completed } s.jobs⟩) := by
  simp [complete_job, hg]

theorem fail_job_absent {id : String} {s : Store} (hg : jobsGet id s.jobs = none) :
    fail_job id s = (.NotFound, s) := by
  simp [fail_job, hg]

theorem fail_job_present {id : String} {s : Store} {r : JobRecord}
    (hg : jobsGet id s.jobs = some r) :
    fail_job id s = (.Failed,
      ⟨sremList id s.active, jobsSet id { r with status := .Failed } s.jobs⟩) := by
  simp [fail_job, hg]

theorem retry_job_absent {id : String} {s : Store} (hg : jobsGet id s.jobs = none) :
    retry_job id s = (.NotFound, s) := by
  simp [retry_job, hg]

theorem retry_job_capped {id : String} {s : Store} {r : JobRecord}
    (hg : jobsGet id s.jobs = some r) (hc : r.retries + 1 > MAX_RETRIES) :
    retry_job id s = (.MaxRetriesExceeded, s) := by
  simp [retry_job, hg, hc]

theorem retry_job_ok {id : String} {s : Store} {r : JobRecord}
    (hg : jobsGet id s.jobs = some r) (hc : ¬ r.retries + 1 > MAX_RETRIES) :
    retry_job id s = (.Retried,
      { s with jobs :=
        jobsSet id { r with status := .Retrying, progress := 0, retries := r.retries + 1 } s.jobs }) := by
  simp [retry_job, hg, hc]

/-- Forward lockstep direction is preserved by every operation: every id in
the active set keeps a record with in-flight status. -/
theorem inFlight_preserved (op : Op) (s : Store)
    (h : ∀ id, id ∈ s.active → inFlightStatus id s = true) :
    ∀ id, id ∈ (applyOp op s).active → inFlightStatus id (applyOp op s) = true := by
  intro id hmem
  cases op with
  | start jid now =>
    by_cases hj : jid ∈ s.active
    · rw [applyOp, start_job_active now hj] at hmem ⊢
      exact h id hmem
    · rw [applyOp, start_job_inactive now hj] at hmem ⊢
      simp only [inFlightStatus, jobsGet_jobsSet]
      by_cases hij : jid = id
      · simp [hij]
      · simp only [if_neg hij]
        rcases mem_saddList.mp hmem with rfl | hid2
        · exact absurd rfl hij
        · exact h id hid2
  | update jid p =>
    cases hg : jobsGet jid s.jobs with
    | none =>
      rw [applyOp, update_progress_absent p hg] at hmem ⊢
      exact h id hmem
    | some r =>
      by_cases hr : r.status = .Running
      · rw [applyOp, update_progress_running p hg hr] at hmem ⊢
        simp only [inFlightStatus, jobsGet_jobsSet]
        by_cases hij : jid = id
        · simp [hij, hr]
        · simp only [if_neg hij]
          exact h id hmem
      · rw [applyOp, update_progress_not_running p hg hr] at hmem ⊢
        exact h id hmem
  | fail jid =>
    cases hg : jobsGet jid s.jobs with
    | none =>
      rw [applyOp, fail_job_absent hg] at hmem ⊢
      exact h id hmem
    | some r =>
      rw [applyOp, fail_job_present hg] at hmem ⊢
      obtain ⟨hid2, hne⟩ := mem_sremList.mp hmem
      simp only [inFlightStatus, jobsGet_jobsSet, if_neg (fun hh : jid = id => hne hh.symm)]
      exact h id hid2
  | retry jid =>
    cases hg : jobsGet jid s.jobs with
    | none =>
      rw [applyOp, retry_job_absent hg] at hmem ⊢
      exact h id hmem
    | some r =>
      by_cases hc : r.retries + 1 > MAX_RETRIES
      · rw [applyOp, retry_job_capped hg hc] at hmem ⊢
        exact h id hmem
      · rw [applyOp, retry_job_ok hg hc] at hmem ⊢
        simp only [inFlightStatus, jobsGet_jobsSet]
        by_cases hij : jid = id
        · simp [hij]
        · simp only [if_neg hij]
          exact h id hmem
  | complete jid =>
    cases hg : jobsGet jid s.jobs with
    | none =>
      rw [applyOp, complete_job_absent hg] at hmem ⊢
      exact h id hmem
    | some r =>
      rw [applyOp, complete_job_present hg] at hmem ⊢
      obtain ⟨hid2, hne⟩ := mem_sremList.mp hmem
      simp only [inFlightStatus, jobsGet_jobsSet, if_neg (fun hh : jid = id => hne hh.symm)]
      exact h id hid2
  | checkStuck now =>
    rw [applyOp_checkStuck] at hmem ⊢
    exact h id hmem

/-! ### Claim theorems -/

/-- C1 counterexample: the lockstep invariant `id ∈ active ⇔ status ∈
{Running, Retrying}` is violated in a reachable state: after
`start_job "a"`, `fail_job "a"`, `retry_job "a"` the record of `"a"` has
status `Retrying` but `"a"` is not in the active set, because `retry_job`
never re-adds the id to `active_jobs`. -/
theorem C1_lockstep_counterexample :
    Reachable (runOps [.start "a" 0, .fail "a", .retry "a"] emptyStore) ∧
    statusOf "a" (runOps [.start "a" 0, .fail "a", .retry "a"] emptyStore) = some .Retrying ∧
    (runOps [.start "a" 0, .fail "a", .retry "a"] emptyStore).active.contains "a" = false := by
  refine ⟨?_, by decide, by decide⟩
  show Reachable (applyOp (.retry "a") (applyOp (.fail "a") (applyOp (.start "a" 0) emptyStore)))
  exact Reachable.step (.retry "a") (Reachable.step (.fail "a")
    (Reachable.step (.start "a" 0) Reachable.init))

/-- C1 amended: only the forward direction of the lockstep invariant holds.
In every reachable store, every id in the active set has a record whose
status is `Running` or `Retrying`; the converse fails because `retry_job`
sets `status=Retrying` without re-adding the id to the active set (see the
counterexample). -/
theorem C1_active_implies_inflight (s : Store) (hs : Reachable s) :
    ∀ id, id ∈ s.active → inFlightStatus id s = true := by
  induction hs with
  | init => intro id hid; simp [emptyStore] at hid
  | step op hs ih => exact inFlight_preserved op _ ih

/-- C1 witness: the amended theorem applied to the store reached by a single
`start_job "a"`. -/
theorem C1_active_implies_inflight_witness :
    inFlightStatus "a" (runOps [.start "a" 0] emptyStore) = true :=
  C1_active_implies_inflight (applyOp (.start "a" 0) emptyStore)
    (Reachable.step (.start "a" 0) Reachable.init) "a" (by decide)

/-- C2: the stuck-job detector is broken in the source.  On the spec's own
scenario (a `Running` job with `elapsed = 400 > THRESHOLD_TIMEOUT = 300` and
`progress_delta = 3 < PROGRESS_THRESHOLD = 10`) `check_stuck_jobs` raises
`NameError` while evaluating `elapsed_time > THRESHOLD_TIME` — the name
`THRESHOLD_TIME` is not defined in the module — instead of comparing against
`THRESHOLD_TIMEOUT` and failing the job. -/
theorem C2_detector_crashes :
    check_stuck_jobs 400 ⟨["stuck-1"], [("stuck-1", ⟨.Running, 3, 0, 0, 0⟩)]⟩
      = .error .NameErrorThresholdTime ∧
    (400 : Int) - 0 > THRESHOLD_TIMEOUT ∧ (3 : Int) - 0 < PROGRESS_THRESHOLD :=
  ⟨rfl, by decide, by decide⟩

/-- C3 counterexample: `retry_job` does not re-baseline `start_time`.  On a
record started at time 100, a successful retry leaves `start_time = 100`
(the source's `HMSET` writes only `status`, `progress`, `retries`), so the
claim's `start_time = now` fails for any retry time other than 100, for
example 500. -/
theorem C3_retry_start_time_counterexample :
    (retry_job "a" ⟨[], [("a", ⟨.Failed, 5, 2, 0, 100⟩)]⟩).1 = .Retried ∧
    (retry_job "a" ⟨[], [("a", ⟨.Failed, 5, 2, 0, 100⟩)]⟩).2.jobs =
      [("a", ⟨.Retrying, 0, 2, 1, 100⟩)] ∧
    (100 : Int) ≠ 500 :=
  ⟨rfl, rfl, by decide⟩

/-- C3 amended: when the record exists and `retries + 1 ≤ MAX_RETRIES`,
`retry_job` returns `Retried` and the record becomes `status=Retrying`,
`progress=0`, `retries` incremented by one, with `start_time` (and
`last_progress`) left unchanged — the source never resets `start_time`. -/
theorem C3_retry_success_postcondition {id : String} {s : Store} {r : JobRecord}
    (hg : jobsGet id s.jobs = some r) (hc : r.retries + 1 ≤ MAX_RETRIES) :
    (retry_job id s).1 = .Retried ∧
    jobsGet id (retry_job id s).2.jobs =
      some ⟨.Retrying, 0, r.last_progress, r.retries + 1, r.start_time⟩ := by
  have hc2 : ¬ r.retries + 1 > MAX_RETRIES := not_lt.mpr hc
  rw [retry_job_ok hg hc2]
  exact ⟨rfl, by simp [jobsGet_jobsSet]⟩

/-- C3 witness: the amended theorem at a concrete store. -/
theorem C3_retry_success_postcondition_witness :
    (retry_job "a" ⟨[], [("a", ⟨.Failed, 5, 2, 0, 100⟩)]⟩).1 = .Retried ∧
    jobsGet "a" (retry_job "a" ⟨[], [("a", ⟨.Failed, 5, 2, 0, 100⟩)]⟩).2.jobs =
      some ⟨.Retrying, 0, 2, 1, 100⟩ :=
  @C3_retry_success_postcondition "a" ⟨[], [("a", ⟨.Failed, 5, 2, 0, 100⟩)]⟩
    ⟨.Failed, 5, 2, 0, 100⟩ rfl (by decide)

/-- C4 counterexample: terminal states are not durable.  In a reachable
store the record of `"a"` is `Failed`, and `retry_job "a"` moves it to
`Retrying`. -/
theorem C4_terminal_left_counterexample :
    statusOf "a" (runOps [.start "a" 0, .fail "a"] emptyStore) = some .Failed ∧
    statusOf "a" (runOps [.start "a" 0, .fail "a", .retry "a"] emptyStore) = some .Retrying :=
  ⟨by decide, by decide⟩

/-- C4 amended: terminal statuses survive `update_progress`, `fail_job`,
`complete_job` and `check_stuck_jobs`, but not `retry_job` (which has no
status guard and revives any record whose retry count allows it) and not
`start_job` (which overwrites the record of any id absent from the active
set with a fresh `Running` record). -/
theorem C4_terminal_not_revived (op : Op) (s : Store) (id : String)
    (hop : nonReviving op = true) (ht : terminalAt id s = true) :
    terminalAt id (applyOp op s) = true := by
  cases op with
  | start jid now => simp [nonReviving] at hop
  | retry jid => simp [nonReviving] at hop
  | checkStuck now => rw [applyOp_checkStuck]; exact ht
  | update jid p =>
    cases hg : jobsGet jid s.jobs with
    | none => rw [applyOp, update_progress_absent p hg]; exact ht
    | some r =>
      by_cases hr : r.status = .Running
      · rw [applyOp, update_progress_running p hg hr]
        by_cases hij : jid = id
        · subst hij
          simp only [terminalAt, hg, hr] at ht
          simp at ht
        · simp only [terminalAt, jobsGet_jobsSet, if_neg hij]
          exact ht
      · rw [applyOp, update_progress_not_running p hg hr]; exact ht
  | fail jid =>
    cases hg : jobsGet jid s.jobs with
    | none => rw [applyOp, fail_job_absent hg]; exact ht
    | some r =>
      rw [applyOp, fail_job_present hg]
      simp only [terminalAt, jobsGet_jobsSet]
      by_cases hij : jid = id
      · simp [hij]
      · simp only [if_neg hij]; exact ht
  | complete jid =>
    cases hg : jobsGet jid s.jobs with
    | none => rw [applyOp, complete_job_absent hg]; exact ht
    | some r =>
      rw [applyOp, complete_job_present hg]
      simp only [terminalAt, jobsGet_jobsSet]
      by_cases hij : jid = id
      · simp [hij]
      · simp only [if_neg hij]; exact ht

/-- C4 witness: the amended theorem on a `Failed` record and an
`update_progress` call. -/
theorem C4_terminal_not_revived_witness :
    terminalAt "a" (applyOp (.update "a" 7) ⟨[], [("a", ⟨.Failed, 0, 0, 0, 0⟩)]⟩) = true :=
  C4_terminal_not_revived (.update "a" 7) ⟨[], [("a", ⟨.Failed, 0, 0, 0, 0⟩)]⟩ "a"
    rfl (by decide)

/-- C5: the `update_progress` contract.  No record: `Not Found` with no
mutation.  Record not `Running`: `Not Running` with the store unchanged.
Record `Running`: `Progress Updated`, `last_progress` becomes the progress
held before the update, `progress` becomes the new value, every other field
and the active set are unchanged. -/
theorem C5_update_progress_contract (id : String) (p : Int) (s : Store) :
    (jobsGet id s.jobs = none → update_progress id p s = (.NotFound, s)) ∧
    (∀ r, jobsGet id s.jobs = some r → r.status ≠ .Running →
      update_progress id p s = (.NotRunning, s)) ∧
    (∀ r, jobsGet id s.jobs = some r → r.status = .Running →
      (update_progress id p s).1 = .ProgressUpdated ∧
      jobsGet id (update_progress id p s).2.jobs =
        some ⟨r.status, p, r.progress, r.retries, r.start_time⟩ ∧
      (update_progress id p s).2.active = s.active) := by
  refine ⟨fun hg => update_progress_absent p hg,
    fun r hg hr => update_progress_not_running p hg hr,
    fun r hg hr => ?_⟩
  rw [update_progress_running p hg hr]
  exact ⟨rfl, by simp [jobsGet_jobsSet], rfl⟩

/-- C5 witness: the contract at a concrete store, exercising all three
cases. -/
theorem C5_update_progress_contract_witness :
    (update_progress "c" 7 ⟨["a"], [("a", ⟨.Running, 4, 1, 0, 0⟩), ("b", ⟨.Failed, 0, 0, 0, 0⟩)]⟩
      = (.NotFound, ⟨["a"], [("a", ⟨.Running, 4, 1, 0, 0⟩), ("b", ⟨.Failed, 0, 0, 0, 0⟩)]⟩)) ∧
    (update_progress "b" 7 ⟨["a"], [("a", ⟨.Running, 4, 1, 0, 0⟩), ("b", ⟨.Failed, 0, 0, 0, 0⟩)]⟩
      = (.NotRunning, ⟨["a"], [("a", ⟨.Running, 4, 1, 0, 0⟩), ("b", ⟨.Failed, 0, 0, 0, 0⟩)]⟩)) ∧
    jobsGet "a"
      (update_progress "a" 7 ⟨["a"], [("a", ⟨.Running, 4, 1, 0, 0⟩), ("b", ⟨.Failed, 0, 0, 0, 0⟩)]⟩).2.jobs
      = some ⟨.Running, 7, 4, 0, 0⟩ :=
  ⟨(C5_update_progress_contract "c" 7
      ⟨["a"], [("a", ⟨.Running, 4, 1, 0, 0⟩), ("b", ⟨.Failed, 0, 0, 0, 0⟩)]⟩).1 rfl,
   (C5_update_progress_contract "b" 7
      ⟨["a"], [("a", ⟨.Running, 4, 1, 0, 0⟩), ("b", ⟨.Failed, 0, 0, 0, 0⟩)]⟩).2.1
      ⟨.Failed, 0, 0, 0, 0⟩ rfl (by decide),
   ((C5_update_progress_contract "a" 7
      ⟨["a"], [("a", ⟨.Running, 4, 1, 0, 0⟩), ("b", ⟨.Failed, 0, 0, 0, 0⟩)]⟩).2.2
      ⟨.Running, 4, 1, 0, 0⟩ rfl rfl).2.1⟩

/-- The retry cap is preserved by every operation: every stored record keeps
`retries ≤ MAX_RETRIES`. -/
theorem retriesBounded_preserved (op : Op) (s : Store)
    (h : ∀ id, retriesBounded id s = true) :
    ∀ id, retriesBounded id (applyOp op s) = true := by
  intro id
  cases op with
  | start jid now =>
    by_cases hj : jid ∈ s.active
    · rw [applyOp, start_job_active now hj]
      exact h id
    · rw [applyOp, start_job_inactive now hj]
      simp only [retriesBounded, jobsGet_jobsSet]
      by_cases hij : jid = id
      · simp [hij, MAX_RETRIES]
      · simp only [if_neg hij]
        exact h id
  | update jid p =>
    cases hg : jobsGet jid s.jobs with
    | none =>
      rw [applyOp, update_progress_absent p hg]
      exact h id
    | some r =>
      by_cases hr : r.status = .Running
      · rw [applyOp, update_progress_running p hg hr]
        simp only [retriesBounded, jobsGet_jobsSet]
        by_cases hij : jid = id
        · have hb := h jid
          simp only [retriesBounded, hg] at hb
          simp only [if_pos hij]
          exact hb
        · simp only [if_neg hij]
          exact h id
      · rw [applyOp, update_progress_not_running p hg hr]
        exact h id
  | fail jid =>
    cases hg : jobsGet jid s.jobs with
    | none =>
      rw [applyOp, fail_job_absent hg]
      exact h id
    | some r =>
      rw [applyOp, fail_job_present hg]
      simp only [retriesBounded, jobsGet_jobsSet]
      by_cases hij : jid = id
      · have hb := h jid
        simp only [retriesBounded, hg] at hb
        simp only [if_pos hij]
        exact hb
      · simp only [if_neg hij]
        exact h id
  | retry jid =>
    cases hg : jobsGet jid s.jobs with
    | none =>
      rw [applyOp, retry_job_absent hg]
      exact h id
    | some r =>
      by_cases hc : r.retries + 1 > MAX_RETRIES
      · rw [applyOp, retry_job_capped hg hc]
        exact h id
      · rw [applyOp, retry_job_ok hg hc]
        simp only [retriesBounded, jobsGet_jobsSet]
        by_cases hij : jid = id
        · simp only [if_pos hij]
          exact decide_eq_true (Nat.not_lt.mp hc)
        · simp only [if_neg hij]
          exact h id
  | complete jid =>
    cases hg : jobsGet jid s.jobs with
    | none =>
      rw [applyOp, complete_job_absent hg]
      exact h id
    | some r =>
      rw [applyOp, complete_job_present hg]
      simp only [retriesBounded, jobsGet_jobsSet]
      by_cases hij : jid = id
      · have hb := h jid
        simp only [retriesBounded, hg] at hb
        simp only [if_pos hij]
        exact hb
      · simp only [if_neg hij]
        exact h id
  | checkStuck now =>
    rw [applyOp_checkStuck]
    exact h id

/-- C6: the retry cap.  In every reachable store every record satisfies
`retries ≤ MAX_RETRIES`; a `retry_job` whose increment would exceed
`MAX_RETRIES` returns `Max Retries Exceeded` and leaves the store
unchanged; and with `MAX_RETRIES = 3` the scenario "start, then four
sequential retries" yields `Retried, Retried, Retried, MaxRetriesExceeded`
with the final retry count capped at 3. -/
theorem C6_retry_cap :
    (∀ s, Reachable s → ∀ id, retriesBounded id s = true) ∧
    (∀ s (id : String) r, jobsGet id s.jobs = some r → r.retries + 1 > MAX_RETRIES →
      retry_job id s = (.MaxRetriesExceeded, s)) ∧
    fourRetries.1 = [.Retried, .Retried, .Retried, .MaxRetriesExceeded] ∧
    retriesOf "j" fourRetries.2 = some 3 := by
  refine ⟨?_, fun s id r hg hc => retry_job_capped hg hc, by decide, by decide⟩
  intro s hs
  induction hs with
  | init => intro id; simp [retriesBounded, emptyStore, jobsGet]
  | step op hs ih => exact retriesBounded_preserved op _ ih

/-- C6 witness: the reachable-state bound after one `start_job`, and the
rejected fifth retry on a record already holding `retries = 3`. -/
theorem C6_retry_cap_witness :
    retriesBounded "a" (runOps [.start "a" 0] emptyStore) = true ∧
    retry_job "a" ⟨[], [("a", ⟨.Failed, 0, 0, 3, 0⟩)]⟩ =
      (.MaxRetriesExceeded, ⟨[], [("a", ⟨.Failed, 0, 0, 3, 0⟩)]⟩) :=
  ⟨C6_retry_cap.1 (applyOp (.start "a" 0) emptyStore)
     (Reachable.step (.start "a" 0) Reachable.init) "a",
   C6_retry_cap.2.1 ⟨[], [("a", ⟨.Failed, 0, 0, 3, 0⟩)]⟩ "a" ⟨.Failed, 0, 0, 3, 0⟩
     rfl (by decide)⟩

/-- C7: `start_job` on an active id returns `Duplicate Job ID` with the
store (in particular the existing record) unchanged; on an inactive id it
creates the record `status=Running, progress=0, last_progress=0, retries=0,
start_time=now`, adds the id to the active set and returns `Accepted`. -/
theorem C7_start_job_contract (id : String) (now : Int) (s : Store) :
    (id ∈ s.active → start_job id now s = (.DuplicateJobId, s)) ∧
    (id ∉ s.active →
      (start_job id now s).1 = .Accepted ∧
      jobsGet id (start_job id now s).2.jobs = some ⟨.Running, 0, 0, 0, now⟩ ∧
      id ∈ (start_job id now s).2.active) := by
  refine ⟨fun hj => start_job_active now hj, fun hj => ?_⟩
  rw [start_job_inactive now hj]
  exact ⟨rfl, by simp [jobsGet_jobsSet], mem_saddList.mpr (Or.inl rfl)⟩

/-- C7 witness: a duplicate start on an active id and a fresh start on an
inactive one. -/
theorem C7_start_job_contract_witness :
    start_job "a" 9 ⟨["a"], [("a", ⟨.Running, 5, 2, 1, 0⟩)]⟩ =
      (.DuplicateJobId, ⟨["a"], [("a", ⟨.Running, 5, 2, 1, 0⟩)]⟩) ∧
    (start_job "b" 9 ⟨["a"], [("a", ⟨.Running, 5, 2, 1, 0⟩)]⟩).1 = .Accepted ∧
    jobsGet "b" (start_job "b" 9 ⟨["a"], [("a", ⟨.Running, 5, 2, 1, 0⟩)]⟩).2.jobs =
      some ⟨.Running, 0, 0, 0, 9⟩ :=
  ⟨(C7_start_job_contract "a" 9 ⟨["a"], [("a", ⟨.Running, 5, 2, 1, 0⟩)]⟩).1 (by decide),
   ((C7_start_job_contract "b" 9 ⟨["a"], [("a", ⟨.Running, 5, 2, 1, 0⟩)]⟩).2 (by decide)).1,
   ((C7_start_job_contract "b" 9 ⟨["a"], [("a", ⟨.Running, 5, 2, 1, 0⟩)]⟩).2 (by decide)).2.1⟩

/-- C9 counterexample: the source's `start_job` is a check-then-write
sequence, not a single atomic conditional store, so two concurrent
`start_job "a"` calls — under the schedule where both run `SISMEMBER`
before either writes — both insert and both return `Accepted`; the
sequential composition, by contrast, rejects the second call. -/
theorem C9_both_accepted_counterexample :
    twoStartsInterleaved.1.pc = .finished .Accepted ∧
    twoStartsInterleaved.2.1.pc = .finished .Accepted ∧
    (start_job "a" 5 (start_job "a" 0 emptyStore).2).1 = .DuplicateJobId :=
  ⟨by decide, by decide, by decide⟩

/-- C9 amended: `start_job` performs a separate `SISMEMBER` existence read
followed by unconditional `SADD` and `HMSET` writes.  Run without
interference the three commands implement `start_job`, but under the
interleaving in which both callers pass the membership check before either
writes, two concurrent `start_job` calls for the same id both insert and
both return `Accepted`. -/
theorem C9_check_then_write :
    (∀ (id : String) (now : Int) (s : Store),
      runStartAlone ⟨id, now, .checkMember⟩ s =
        (⟨id, now, .finished (start_job id now s).1⟩, (start_job id now s).2)) ∧
    twoStartsInterleaved.1.pc = .finished .Accepted ∧
    twoStartsInterleaved.2.1.pc = .finished .Accepted ∧
    jobsGet "a" twoStartsInterleaved.2.2.jobs = some ⟨.Running, 0, 0, 0, 5⟩ := by
  refine ⟨fun id now s => ?_, by decide, by decide, by decide⟩
  by_cases hj : id ∈ s.active
  · simp [runStartAlone, stepStart, start_job, hj]
  · simp [runStartAlone, stepStart, start_job, hj]

/-- C10: `JobManager.start_job` enforces no id-syntax precondition of its
own: every id not in the active set — also ids the validator rejects — is
accepted and gets a `Running` record.  The `is_valid_job_id` check is
performed only by the `/start-job` route handler, which answers
`Invalid Job ID` without calling `start_job` and otherwise delegates to it
unchanged. -/
theorem C10_start_job_skips_validation (id : String) (now : Int) (s : Store) :
    (id ∉ s.active →
      (start_job id now s).1 = .Accepted ∧
      jobsGet id (start_job id now s).2.jobs = some ⟨.Running, 0, 0, 0, now⟩) ∧
    (is_valid_job_id id = false → route_start_job id now s = (.InvalidJobId, s)) ∧
    (is_valid_job_id id = true →
      route_start_job id now s =
        (.FromManager (start_job id now s).1, (start_job id now s).2)) := by
  refine ⟨fun hj => ?_, fun hv => ?_, fun hv => ?_⟩
  · rw [start_job_inactive now hj]
    exact ⟨rfl, by simp [jobsGet_jobsSet]⟩
  · simp [route_start_job, hv]
  · simp [route_start_job, hv]

/-- C10 witness: the id `"a b"` contains a space, so the validator rejects
it and the route refuses it, yet `start_job` itself accepts it and creates
a record. -/
theorem C10_start_job_skips_validation_witness :
    (start_job "a b" 0 emptyStore).1 = .Accepted ∧
    jobsGet "a b" (start_job "a b" 0 emptyStore).2.jobs = some ⟨.Running, 0, 0, 0, 0⟩ ∧
    route_start_job "a b" 0 emptyStore = (.InvalidJobId, emptyStore) ∧
    is_valid_job_id "a b" = false :=
  ⟨((C10_start_job_skips_validation "a b" 0 emptyStore).1 (by decide)).1,
   ((C10_start_job_skips_validation "a b" 0 emptyStore).1 (by decide)).2,
   (C10_start_job_skips_validation "a b" 0 emptyStore).2.1 (by decide),
   by decide⟩

theorem some_beq_newline (c : Char) : (some c == some '\n') = (c == '\n') := rfl

theorem bool_distrib (x y z w : Bool) :
    (x && (y || (z && w))) = ((x && y) || (z && (x && w))) := by
  cases x <;> cases y <;> cases z <;> cases w <;> rfl

/-- The tail matcher accepts exactly the lists of class characters,
optionally ending in one extra newline. -/
theorem runTail_eq (l : List Char) :
    runTail l = (l.all isIdChar || (l.getLast? == some '\n' && l.dropLast.all isIdChar)) := by
  induction l with
  | nil => rfl
  | cons c cs ih =>
    cases hc : isIdChar c with
    | true =>
      cases cs with
      | nil => simp [runTail, hc]
      | cons d ds =>
        have h1 : runTail (c :: d :: ds) = runTail (d :: ds) := by simp [runTail, hc]
        rw [h1, ih]
        simp [hc]
    | false =>
      cases cs with
      | nil => simp [runTail, hc, some_beq_newline]
      | cons d ds => simp [runTail, hc]

/-- C8 counterexample: the claim says every string containing a character
outside `[A-Za-z0-9-]` is rejected, but the validator accepts `"abc\n"`:
CPython's `$` anchor (without `re.MULTILINE`) also matches just before a
single trailing newline, and `'\n'` is outside the class. -/
theorem C8_validator_counterexample :
    is_valid_job_id "abc\n" = true ∧ '\n' ∈ "abc\n".data ∧ isIdChar '\n' = false :=
  ⟨rfl, by decide, rfl⟩

/-- C8 amended: `is_valid_job_id` accepts exactly the non-empty strings of
ASCII letters, digits and hyphens, optionally followed by one single
trailing newline (`specValidWithNewline`); every other string — the empty
string, strings with other characters, other whitespace, or more than one
trailing newline — is rejected. -/
theorem C8_validator_characterization (s : String) :
    is_valid_job_id s = specValidWithNewline s.data := by
  rw [is_valid_job_id]
  generalize s.data = l
  cases l with
  | nil => rfl
  | cons c cs =>
    rw [isValidJobIdL, runTail_eq]
    cases cs with
    | nil => simp [specValidWithNewline, coreValid, some_beq_newline]
    | cons d ds =>
      cases hn : (d :: ds).getLast? with
      | none => simp at hn
      | some ch =>
        simp [specValidWithNewline, coreValid, hn, some_beq_newline, bool_distrib]

end Cronify
